import Mathlib

/-!
Verification of the DHD ECP TCP client (`custom_components/dhd_audio/ecp.py`).

The development shallowly embeds the protocol core: the frame codec
(`_build_block` / `_parse_block`), the correlation engine embedded in
`_listener_loop`, the timeout path of `send_command`, the logic helpers,
and the connect/disconnect state transitions.  Bytes are modelled as `Nat`
values (produced < 256 where the source produces bytes), byte strings as
`List Nat`, and Python exceptions as `Except` errors.
-/

namespace DHD

/-- `ECP_BLOCK_SIZE` from `const.py`. -/
def ECP_BLOCK_SIZE : Nat := 16

/-- `ECP_CMD_SET_LOGIC` from `const.py` (0x110E0000). -/
def ECP_CMD_SET_LOGIC : Nat := 0x110E0000

/-- Python `int.to_bytes(n, "big")`: the `n`-byte big-endian encoding of `v`
(the low `8*n` bits of `v`; the source raises `OverflowError` for larger
values, which callers exclude by hypothesis). -/
def natToBytesBE : Nat → Nat → List Nat
  | 0, _ => []
  | n + 1, v => natToBytesBE n (v / 256) ++ [v % 256]

/-- Python `int.from_bytes(bs, "big")`. -/
def bytesToNatBE (bs : List Nat) : Nat :=
  bs.foldl (fun acc b => acc * 256 + b) 0

/-- Python `bytes.ljust(width, fill)`: pad on the right up to `width`. -/
def ljust (data : List Nat) (width : Nat) (fill : Nat) : List Nat :=
  data ++ List.replicate (width - data.length) fill

/-- The exceptions the ECP client raises, by site. -/
inductive ECPError where
  /-- `ValueError` from `_build_block` when the payload exceeds 8 bytes. -/
  | invalidPayload (got : Nat)
  /-- `DHDProtocolError` from `_parse_block` on a block that is not 16 bytes. -/
  | malformedFrame (got : Nat)
  /-- `DHDProtocolError` from `get_logic_state` on a short reply. -/
  | protocolError
  /-- `DHDProtocolError` from `send_command` on response timeout. -/
  | timeout
  /-- `DHDConnectionError` from `connect`. -/
  | connectionFailed
  /-- `DHDConnectionError("Disconnected")` set on pending futures by `_stop_listener`. -/
  | disconnected
  deriving Repr, DecidableEq

/-- `DHDClient._build_block`: build a 16-byte ECP block, or fail when the
payload exceeds 8 bytes. -/
def build_block (command_id : Nat) (data : List Nat) : Except ECPError (List Nat) :=
  if data.length > 8 then
    .error (.invalidPayload data.length)
  else
    .ok ([data.length, 0x00] ++ natToBytesBE 4 command_id ++ ljust data 8 0x00 ++ [0x00, 0x00])

/-- `DHDClient._parse_block`: parse a 16-byte ECP block into
`(length, command_id, data)`, failing when the input is not 16 bytes.
The data field is the Python slice `block[6 : 6 + length]` (= drop 6, take
`length`), which silently truncates at the end of the block. -/
def parse_block (block : List Nat) : Except ECPError (Nat × Nat × List Nat) :=
  if block.length ≠ ECP_BLOCK_SIZE then
    .error (.malformedFrame block.length)
  else
    .ok (block.headD 0, bytesToNatBE ((block.drop 2).take 4),
         (block.drop 6).take (block.headD 0))

/-- A pending request of the correlation engine: `send_command` keys each
future by a monotonically increasing `pid` in the `_pending` dict (whose
iteration order is insertion order) and stashes `(command_id, logic_id)` on
it as `fut._dhd_match`. -/
structure PendingReq where
  pid : Nat
  expected_cmd : Nat
  expected_logic : Option Nat
  deriving Repr, DecidableEq

/-- The per-request match test of `_listener_loop`: skip when the command
differs; when a logic key is expected AND the data has at least 2 bytes,
also skip when the echoed big-endian id differs; otherwise deliver the frame
to this request. -/
def reqMatches (cmd : Nat) (data : List Nat) (r : PendingReq) : Bool :=
  if cmd ≠ r.expected_cmd then false
  else
    match r.expected_logic with
    | none => true
    | some k => if 2 ≤ data.length then bytesToNatBE (data.take 2) == k else true

/-- The match predicate as the specification words it (§4.3 `dispatch`):
a request matches iff the commands agree AND (the secondary key is absent OR
(the payload has ≥2 bytes AND the big-endian uint16 of its first 2 bytes
equals the key)). Kept separate from `reqMatches` for comparison. -/
def reqMatchesSpec (cmd : Nat) (data : List Nat) (r : PendingReq) : Bool :=
  cmd == r.expected_cmd &&
    match r.expected_logic with
    | none => true
    | some k => decide (2 ≤ data.length) && bytesToNatBE (data.take 2) == k

/-- The dispatch scan of `_listener_loop`: walk the pending requests in
insertion order; the first match receives `(cmd, data)` as its result and
leaves the in-flight set (its future is done and is skipped by every later
scan, and `send_command` pops it); scanning stops at the first match.
Returns the completion, if any, and the remaining in-flight set. -/
def dispatch : List PendingReq → Nat → List Nat →
    Option (PendingReq × Nat × List Nat) × List PendingReq
  | [], _, _ => (none, [])
  | r :: rest, cmd, data =>
    if reqMatches cmd data r then (some (r, cmd, data), rest)
    else
      let res := dispatch rest cmd data
      (res.1, r :: res.2)

/-- The unsolicited-push classification of `_listener_loop`: a frame not
delivered to any pending request, carrying `ECP_CMD_SET_LOGIC` and at least
3 data bytes, yields one `(logic_id, state)` callback invocation; anything
else yields none. -/
def pushEvent (delivered : Bool) (cmd : Nat) (data : List Nat) : Option (Nat × Bool) :=
  if !delivered && cmd == ECP_CMD_SET_LOGIC && decide (3 ≤ data.length) then
    some (bytesToNatBE (data.take 2), data.getD 2 0x00 != 0x00)
  else
    none

/-- One iteration of `_listener_loop` after a successful 16-byte read:
parse the block, run the dispatch scan, classify the remainder as push or
drop. A parse failure would escape to the loop's outer `except Exception`
handler and end the loop, modelled as `Except.error`; `readexactly` hands
the loop exactly 16 bytes, so that path is unreachable. -/
def listenerStep (pending : List PendingReq) (raw : List Nat) :
    Except Unit (List PendingReq × Option (PendingReq × Nat × List Nat) × Option (Nat × Bool)) :=
  match parse_block raw with
  | .error _ => .error ()
  | .ok (_, cmd, data) =>
    let d := dispatch pending cmd data
    .ok (d.2, d.1, pushEvent d.1.isSome cmd data)

/-- `_listener_loop` over a finite inbound stream: the stream is the list of
16-byte blocks `readexactly` returns before the read that raises
`IncompleteReadError` (end of stream).  Each push invocation hands
`(logic_id, state)` to the registered callback inside a `try/except` whose
result is discarded (exceptions are logged, never propagated).  On end of
stream the loop `break`s with the in-flight set untouched.  Returns the
final in-flight set, the completions delivered and the callback
invocations, in order. -/
def listenerRun (handler : Nat × Bool → Except Unit Unit) :
    List PendingReq → List (List Nat) →
    Except Unit (List PendingReq × List (PendingReq × Nat × List Nat) × List (Nat × Bool))
  | pending, [] => .ok (pending, [], [])
  | pending, raw :: rest =>
    match listenerStep pending raw with
    | .error e => .error e
    | .ok (pending', comp, push) =>
      let _handlerResult := push.map handler
      match listenerRun handler pending' rest with
      | .error e => .error e
      | .ok (pfinal, comps, pushes) =>
        .ok (pfinal, comp.elim comps (· :: comps), push.elim pushes (· :: pushes))

/-- The pending-future sweep of `_stop_listener`: every not-yet-done future
gets `DHDConnectionError("Disconnected")` set as its exception. -/
def cancel_pending : List PendingReq → List (Nat × ECPError)
  | [] => []
  | r :: rest => (r.pid, ECPError.disconnected) :: cancel_pending rest

/-- `_stop_listener`: cancel the listener task, fail every pending future
with `Disconnected`, and clear the in-flight dict.  Returns the error
completions and the emptied in-flight set. -/
def stop_listener (pending : List PendingReq) : List (Nat × ECPError) × List PendingReq :=
  (cancel_pending pending, [])

/-- The two ways `send_command`'s `asyncio.wait_for(fut, READ_TIMEOUT)` can
resolve: the listener filled the future, or the timeout fired. -/
inductive WaitOutcome where
  | filled (cmd : Nat) (data : List Nat)
  | timedOut

/-- `self._pending.pop(pid, None)` in `send_command`'s `finally` block. -/
def removePending (pending : List PendingReq) (pid : Nat) : List PendingReq :=
  pending.filter fun r => r.pid ≠ pid

/-- The tail of `send_command`: await the future with a timeout; a timeout
becomes a `DHDProtocolError`; the `finally` block pops the pending id on
every path. -/
def send_command_await (pending : List PendingReq) (pid : Nat) :
    WaitOutcome → Except ECPError (Nat × List Nat) × List PendingReq
  | .filled cmd data => (.ok (cmd, data), removePending pending pid)
  | .timedOut => (.error .timeout, removePending pending pid)

/-- The request `get_logic_state(logic_id)` hands to `send_command`:
`(ECP_CMD_SET_LOGIC, logic_id.to_bytes(2, "big"), logic_id)` — command,
data, secondary key. -/
def get_logic_state_request (logic_id : Nat) : Nat × List Nat × Option Nat :=
  (ECP_CMD_SET_LOGIC, natToBytesBE 2 logic_id, some logic_id)

/-- How `get_logic_state` interprets the reply data: fewer than 3 bytes is a
`DHDProtocolError`, otherwise the state is `resp_data[2] != 0x00`. -/
def get_logic_state_reply (resp_data : List Nat) : Except ECPError Bool :=
  if resp_data.length < 3 then .error .protocolError
  else .ok (resp_data.getD 2 0x00 != 0x00)

/-- The connection-relevant client state: `_reader` (present or `None`),
`_writer` (`some isClosing` when present, `none` when `None`) and whether a
listener task is running. -/
structure ClientState where
  hasReader : Bool
  writer : Option Bool
  listenerRunning : Bool
  deriving Repr, DecidableEq

/-- `DHDClient.connected`: the writer is present and not closing. -/
def connected (s : ClientState) : Bool :=
  match s.writer with
  | some closing => !closing
  | none => false

/-- How `asyncio.open_connection` under `wait_for` can resolve in `connect`:
it returned a `(reader, writer)` pair, or raised `OSError` /
`asyncio.TimeoutError`. -/
inductive ConnectOutcome where
  | opened
  | failed

/-- `DHDClient._start_listener`: a no-op while a live listener task exists. -/
def start_listener (s : ClientState) : ClientState :=
  if s.listenerRunning then s else { s with listenerRunning := true }

/-- `DHDClient.connect` as a state transition: a no-op when already
connected; on success store the reader/writer and start the listener; on
failure reset both to `None` and raise `DHDConnectionError`. -/
def connect (s : ClientState) (oc : ConnectOutcome) : Except ECPError Unit × ClientState :=
  if connected s then (.ok (), s)
  else
    match oc with
    | .opened => (.ok (), start_listener { s with hasReader := true, writer := some false })
    | .failed => (.error .connectionFailed, { s with hasReader := false, writer := none })

theorem natToBytesBE_length (n v : Nat) : (natToBytesBE n v).length = n := by
  induction n generalizing v with
  | zero => rfl
  | succ n ih => simp [natToBytesBE, ih]

theorem bytesToNatBE_append_singleton (bs : List Nat) (b : Nat) :
    bytesToNatBE (bs ++ [b]) = bytesToNatBE bs * 256 + b := by
  simp [bytesToNatBE, List.foldl_append]

theorem bytesToNatBE_natToBytesBE (n v : Nat) (h : v < 256 ^ n) :
    bytesToNatBE (natToBytesBE n v) = v := by
  induction n generalizing v with
  | zero =>
    interval_cases v
    rfl
  | succ n ih =>
    have hdiv : v / 256 < 256 ^ n := by
      rw [Nat.div_lt_iff_lt_mul (by norm_num : 0 < 256)]
      calc v < 256 ^ (n + 1) := h
        _ = 256 ^ n * 256 := by ring
    rw [natToBytesBE, bytesToNatBE_append_singleton, ih _ hdiv]
    omega

theorem ljust_length (p : List Nat) (hp : p.length ≤ 8) : (ljust p 8 0x00).length = 8 := by
  simp only [ljust, List.length_append, List.length_replicate]
  omega

theorem build_block_ok (c : Nat) (p : List Nat) (hp : p.length ≤ 8) :
    build_block c p =
      .ok ([p.length, 0x00] ++ natToBytesBE 4 c ++ ljust p 8 0x00 ++ [0x00, 0x00]) := by
  rw [build_block, if_neg (by omega)]

theorem parse_build_aux (c : Nat) (p : List Nat) (hc : c < 2 ^ 32) (hp : p.length ≤ 8) :
    parse_block ([p.length, 0x00] ++ natToBytesBE 4 c ++ ljust p 8 0x00 ++ [0x00, 0x00])
      = .ok (p.length, c, p) := by
  have h4 : (natToBytesBE 4 c).length = 4 := natToBytesBE_length 4 c
  have hlj : (ljust p 8 0x00).length = 8 := ljust_length p hp
  have hassoc : [p.length, 0x00] ++ natToBytesBE 4 c ++ ljust p 8 0x00 ++ [0x00, 0x00]
      = p.length :: 0x00 :: (natToBytesBE 4 c ++ (ljust p 8 0x00 ++ [0x00, 0x00])) := by
    simp [List.append_assoc]
  have hlen : (p.length :: 0x00 :: (natToBytesBE 4 c ++ (ljust p 8 0x00 ++ [0x00, 0x00]))).length
      = 16 := by
    simp [h4, hlj]
  rw [hassoc, parse_block, if_neg (by simp [hlen, ECP_BLOCK_SIZE])]
  have hdrop2 : (p.length :: 0x00 :: (natToBytesBE 4 c ++ (ljust p 8 0x00 ++ [0x00, 0x00]))).drop 2
      = natToBytesBE 4 c ++ (ljust p 8 0x00 ++ [0x00, 0x00]) := rfl
  have hdrop6 : (p.length :: 0x00 :: (natToBytesBE 4 c ++ (ljust p 8 0x00 ++ [0x00, 0x00]))).drop 6
      = (natToBytesBE 4 c ++ (ljust p 8 0x00 ++ [0x00, 0x00])).drop 4 := rfl
  have hsplit : ljust p 8 0x00 ++ [0x00, 0x00]
      = p ++ (List.replicate (8 - p.length) 0x00 ++ [0x00, 0x00]) := by
    simp [ljust, List.append_assoc]
  rw [List.headD_cons, hdrop2, hdrop6, List.take_left' h4,
    bytesToNatBE_natToBytesBE 4 c (hc.trans_eq (by norm_num)),
    List.drop_left' h4, hsplit, List.take_left]

/-- C3: for every payload `p` with `len(p) ≤ 8` and every 32-bit command `c`,
decoding the frame produced by `encode(c, p)` yields exactly
`(len(p), c, p)`: the round-trip returns the original length, command and
payload with the zero padding discarded. -/
theorem decode_encode_roundtrip (c : Nat) (p : List Nat) (hc : c < 2 ^ 32)
    (hp : p.length ≤ 8) :
    (build_block c p).bind parse_block = Except.ok (p.length, c, p) := by
  rw [build_block_ok c p hp]
  show parse_block _ = _
  exact parse_build_aux c p hc hp

theorem decode_encode_roundtrip_witness :
    (build_block 0x110E0000 [0x00, 0x42, 0x01]).bind parse_block
      = Except.ok (3, 0x110E0000, [0x00, 0x42, 0x01]) :=
  decode_encode_roundtrip 0x110E0000 [0x00, 0x42, 0x01] (by norm_num) (by decide)

/-- C4: `encode(command, payload)` succeeds iff `len(payload) ≤ 8`, in which
case it produces exactly 16 bytes with byte 0 the payload length, byte 1
zero, bytes 2-5 the command big-endian, bytes 6-13 the payload left-justified
and zero-padded to 8 bytes, bytes 14-15 zero; a payload of 9 or more bytes
fails with `InvalidPayload`. -/
theorem build_block_layout (c : Nat) (p : List Nat) (hc : c < 2 ^ 32) :
    ((∃ b, build_block c p = .ok b) ↔ p.length ≤ 8) ∧
    (∀ b, build_block c p = .ok b →
      b.length = 16 ∧
      b.headD 0 = p.length ∧
      b.getD 1 0xFF = 0x00 ∧
      bytesToNatBE ((b.drop 2).take 4) = c ∧
      (b.drop 6).take 8 = p ++ List.replicate (8 - p.length) 0x00 ∧
      b.drop 14 = [0x00, 0x00]) ∧
    (9 ≤ p.length → build_block c p = .error (.invalidPayload p.length)) := by
  have h4 : (natToBytesBE 4 c).length = 4 := natToBytesBE_length 4 c
  refine ⟨⟨?_, fun hp => ⟨_, build_block_ok c p hp⟩⟩, ?_, fun h9 => ?_⟩
  · rintro ⟨b, hb⟩
    by_contra hgt
    rw [build_block, if_pos (by omega)] at hb
    exact absurd hb (by simp)
  · intro b hb
    have hp : p.length ≤ 8 := by
      by_contra hgt
      rw [build_block, if_pos (by omega)] at hb
      exact absurd hb (by simp)
    have hlj : (ljust p 8 0x00).length = 8 := ljust_length p hp
    rw [build_block_ok c p hp] at hb
    injection hb with hb
    subst hb
    have hassoc : [p.length, 0x00] ++ natToBytesBE 4 c ++ ljust p 8 0x00 ++ [0x00, 0x00]
        = p.length :: 0x00 :: (natToBytesBE 4 c ++ (ljust p 8 0x00 ++ [0x00, 0x00])) := by
      simp [List.append_assoc]
    rw [hassoc]
    refine ⟨by simp [h4, hlj], rfl, rfl, ?_, ?_, ?_⟩
    · show bytesToNatBE ((natToBytesBE 4 c ++ (ljust p 8 0x00 ++ [0x00, 0x00])).take 4) = c
      rw [List.take_left' h4, bytesToNatBE_natToBytesBE 4 c (hc.trans_eq (by norm_num))]
    · show ((natToBytesBE 4 c ++ (ljust p 8 0x00 ++ [0x00, 0x00])).drop 4).take 8 = _
      rw [List.drop_left' h4, List.take_left' hlj]
      simp [ljust]
    · show (natToBytesBE 4 c ++ (ljust p 8 0x00 ++ [0x00, 0x00])).drop 12 = [0x00, 0x00]
      rw [show (12 : Nat) = 4 + 8 from rfl, ← List.drop_drop, List.drop_left' h4,
        List.drop_left' hlj]
  · rw [build_block, if_pos (by omega)]

theorem build_block_layout_witness :
    build_block 0x110E0000 (List.replicate 9 0x00)
      = .error (.invalidPayload (List.replicate 9 0x00).length) :=
  (build_block_layout 0x110E0000 (List.replicate 9 0x00) (by norm_num)).2.2 (by decide)

/-- C9: `parse_block` never validates the length byte against the 0-8 bound:
every 16-byte input parses successfully, the reported length is byte 0, and
the returned data is the slice `block[6 : 6 + length]` truncated at the end
of the block, hence of length `min length 10`. -/
theorem parse_block_no_length_check (block : List Nat) (h : block.length = 16) :
    ∃ len cmd data, parse_block block = .ok (len, cmd, data) ∧
      len = block.headD 0 ∧
      data = (block.drop 6).take len ∧
      data.length = min len 10 := by
  refine ⟨block.headD 0, bytesToNatBE ((block.drop 2).take 4),
    (block.drop 6).take (block.headD 0), ?_, rfl, rfl, ?_⟩
  · rw [parse_block, if_neg (by simp [h, ECP_BLOCK_SIZE])]
  · rw [List.length_take, List.length_drop, h]

theorem parse_block_no_length_check_witness :
    ∃ len cmd data, parse_block (0xFF :: List.replicate 15 0x00) = .ok (len, cmd, data) ∧
      len = (0xFF :: List.replicate 15 0x00).headD 0 ∧
      data = ((0xFF :: List.replicate 15 0x00).drop 6).take len ∧
      data.length = min len 10 :=
  parse_block_no_length_check (0xFF :: List.replicate 15 0x00) (by decide)

theorem reqMatches_iff (cmd : Nat) (data : List Nat) (r : PendingReq) :
    reqMatches cmd data r = true ↔
      (cmd = r.expected_cmd ∧ (r.expected_logic = none ∨ data.length < 2 ∨
        r.expected_logic = some (bytesToNatBE (data.take 2)))) := by
  rcases r with ⟨pid, ec, el⟩
  simp only [reqMatches]
  cases el with
  | none =>
    by_cases hcmd : cmd = ec <;> simp [hcmd]
  | some k =>
    by_cases hcmd : cmd = ec
    · by_cases hlen : 2 ≤ data.length
      · rw [if_neg (by simp [hcmd])]
        show (if 2 ≤ data.length then bytesToNatBE (data.take 2) == k else true) = true ↔ _
        rw [if_pos hlen, beq_iff_eq]
        constructor
        · intro hh
          exact ⟨hcmd, Or.inr (Or.inr (congrArg some hh.symm))⟩
        · rintro ⟨-, h | h | h⟩
          · exact Option.noConfusion h
          · omega
          · exact (Option.some.inj h).symm
      · have h2 : data.length < 2 := by omega
        rw [if_neg (by simp [hcmd])]
        show (if 2 ≤ data.length then bytesToNatBE (data.take 2) == k else true) = true ↔ _
        rw [if_neg hlen]
        simp [hcmd, h2]
    · simp [hcmd]

theorem dispatch_no_match (cmd : Nat) (data : List Nat) (pending : List PendingReq)
    (h : ∀ r ∈ pending, reqMatches cmd data r = false) :
    dispatch pending cmd data = (none, pending) := by
  induction pending with
  | nil => rfl
  | cons r rest ih =>
    rw [dispatch, if_neg (by simp [h r (List.mem_cons_self r rest)])]
    have hr := ih fun x hx => h x (List.mem_cons_of_mem r hx)
    simp [hr]

theorem dispatch_found (cmd : Nat) (data : List Nat) (pre : List PendingReq)
    (r : PendingReq) (post : List PendingReq)
    (hpre : ∀ x ∈ pre, reqMatches cmd data x = false)
    (hr : reqMatches cmd data r = true) :
    dispatch (pre ++ r :: post) cmd data = (some (r, cmd, data), pre ++ post) := by
  induction pre with
  | nil =>
    simp only [List.nil_append]
    rw [dispatch, if_pos hr]
  | cons x xs ih =>
    rw [List.cons_append, dispatch, if_neg (by simp [hpre x (List.mem_cons_self x xs)])]
    have hx := ih fun y hy => hpre y (List.mem_cons_of_mem x hy)
    simp [hx]

theorem dispatch_mem (cmd : Nat) (data : List Nat) (pending : List PendingReq)
    (result : PendingReq × Nat × List Nat) (rest : List PendingReq)
    (h : dispatch pending cmd data = (some result, rest)) :
    result.1 ∈ pending := by
  induction pending generalizing rest with
  | nil => exact absurd h (by simp [dispatch])
  | cons r tail ih =>
    rw [dispatch] at h
    by_cases hm : reqMatches cmd data r = true
    · rw [if_pos hm] at h
      simp only [Prod.mk.injEq, Option.some.injEq] at h
      rw [← h.1]
      exact List.mem_cons_self r tail
    · rw [if_neg hm] at h
      simp only [Prod.mk.injEq] at h
      have hd : dispatch tail cmd data = (some result, (dispatch tail cmd data).2) := by
        rw [← h.1]
      exact List.mem_cons_of_mem r (ih (dispatch tail cmd data).2 hd)

/-- C1 fails on the code: with one in-flight request for command 5 and
secondary key 0x42, the listener delivers a frame carrying command 5 and an
EMPTY payload to that request — the key comparison is skipped whenever fewer
than 2 data bytes arrived — although the claimed match predicate (key absent
OR (≥2 bytes AND key equal)) says no request matches this frame. -/
theorem dispatch_match_counterexample :
    reqMatchesSpec 5 [] ⟨1, 5, some 0x42⟩ = false ∧
    (dispatch [⟨1, 5, some 0x42⟩] 5 []).1 = some (⟨1, 5, some 0x42⟩, 5, []) := by
  decide

/-- C1 (amended): dispatch scans the in-flight requests in registration
order and a request matches iff the frame's command equals the request's
command AND (the secondary key is absent OR the frame's payload has fewer
than 2 bytes OR the big-endian uint16 of its first 2 bytes equals the key);
the first matching request (insertion order) is completed with the frame's
(command, payload) and removed, and scanning stops, so one frame resolves at
most one request. -/
theorem dispatch_first_match (cmd : Nat) (data : List Nat) :
    (∀ r : PendingReq, reqMatches cmd data r = true ↔
      (cmd = r.expected_cmd ∧ (r.expected_logic = none ∨ data.length < 2 ∨
        r.expected_logic = some (bytesToNatBE (data.take 2))))) ∧
    (∀ pending : List PendingReq, (∀ r ∈ pending, reqMatches cmd data r = false) →
      dispatch pending cmd data = (none, pending)) ∧
    (∀ (pre : List PendingReq) (r : PendingReq) (post : List PendingReq),
      (∀ x ∈ pre, reqMatches cmd data x = false) →
      reqMatches cmd data r = true →
      dispatch (pre ++ r :: post) cmd data = (some (r, cmd, data), pre ++ post)) :=
  ⟨fun r => reqMatches_iff cmd data r,
   fun pending h => dispatch_no_match cmd data pending h,
   fun pre r post hpre hr => dispatch_found cmd data pre r post hpre hr⟩

theorem dispatch_first_match_witness :
    dispatch [⟨1, 5, some 0x42⟩, ⟨2, 5, some 0x42⟩] 5 [0x00, 0x42, 0x01]
      = (some (⟨1, 5, some 0x42⟩, 5, [0x00, 0x42, 0x01]), [⟨2, 5, some 0x42⟩]) :=
  (dispatch_first_match 5 [0x00, 0x42, 0x01]).2.2 [] ⟨1, 5, some 0x42⟩ [⟨2, 5, some 0x42⟩]
    (by simp) (by decide)

theorem listenerRun_handler_irrelevant (h₁ h₂ : Nat × Bool → Except Unit Unit)
    (pending : List PendingReq) (stream : List (List Nat)) :
    listenerRun h₁ pending stream = listenerRun h₂ pending stream := by
  induction stream generalizing pending with
  | nil => rfl
  | cons raw rest ih =>
    simp only [listenerRun]
    cases listenerStep pending raw with
    | error e => rfl
    | ok out =>
      obtain ⟨p', comp, push⟩ := out
      simp only [ih p']

/-- C7: a frame carrying the logic-state command that is matched to no
pending request and has at least 3 payload bytes invokes the registered push
handler exactly once with `(logic_id, active)` — `logic_id` the big-endian
uint16 of the first 2 payload bytes, `active` true iff the third payload
byte is non-zero — and the listener's outcome never depends on the handler,
whose exceptions are swallowed. -/
theorem push_dispatch (pending : List PendingReq) (raw : List Nat)
    (len cmd : Nat) (data : List Nat)
    (hparse : parse_block raw = .ok (len, cmd, data))
    (hcmd : cmd = ECP_CMD_SET_LOGIC)
    (hnomatch : ∀ r ∈ pending, reqMatches cmd data r = false)
    (hlen : 3 ≤ data.length) :
    (∀ handler, listenerRun handler pending [raw]
      = .ok (pending, [], [(bytesToNatBE (data.take 2), data.getD 2 0x00 != 0x00)])) ∧
    (∀ h₁ h₂ (pending₀ : List PendingReq) (stream : List (List Nat)),
      listenerRun h₁ pending₀ stream = listenerRun h₂ pending₀ stream) := by
  have hdisp : dispatch pending cmd data = (none, pending) :=
    dispatch_no_match cmd data pending hnomatch
  have hpush : pushEvent false cmd data
      = some (bytesToNatBE (data.take 2), data.getD 2 0x00 != 0x00) := by
    rw [pushEvent, hcmd, if_pos (by simp [hlen])]
  have hstep : listenerStep pending raw
      = .ok (pending, none, some (bytesToNatBE (data.take 2), data.getD 2 0x00 != 0x00)) := by
    rw [listenerStep, hparse]
    simp [hdisp, hpush]
  refine ⟨fun handler => ?_, fun h₁ h₂ p₀ s => listenerRun_handler_irrelevant h₁ h₂ p₀ s⟩
  simp [listenerRun, hstep]

/-- C8: the listener loop never terminates because of a bad frame or an
internal fault: every 16-byte block parses (see C9) and dispatch and push
classification are total, so for any inbound stream of 16-byte reads the
loop consumes the whole stream and exits only at end of stream (or on task
cancellation, which is outside this model); handler exceptions are swallowed
on the way. -/
theorem listener_survives_stream (handler : Nat × Bool → Except Unit Unit)
    (pending : List PendingReq) (stream : List (List Nat))
    (hs : ∀ raw ∈ stream, raw.length = 16) :
    ∃ out, listenerRun handler pending stream = .ok out := by
  induction stream generalizing pending with
  | nil => exact ⟨(pending, [], []), rfl⟩
  | cons raw rest ih =>
    have hraw : raw.length = 16 := hs raw (List.mem_cons_self raw rest)
    obtain ⟨st, hst⟩ : ∃ st, listenerStep pending raw = .ok st := by
      rw [listenerStep, parse_block, if_neg (by simp [hraw, ECP_BLOCK_SIZE])]
      exact ⟨_, rfl⟩
    obtain ⟨p', comp, push⟩ := st
    obtain ⟨⟨pfin, comps, pushes⟩, hout⟩ :=
      ih p' fun r hr => hs r (List.mem_cons_of_mem raw hr)
    exact ⟨(pfin, comp.elim comps (· :: comps), push.elim pushes (· :: pushes)),
      by simp only [listenerRun, hst, hout]⟩

theorem listener_survives_stream_witness :
    ∃ out, listenerRun (fun _ => Except.ok ()) []
      [List.replicate 16 0x00, 0xFF :: List.replicate 15 0x00] = .ok out :=
  listener_survives_stream (fun _ => Except.ok ()) []
    [List.replicate 16 0x00, 0xFF :: List.replicate 15 0x00] (by decide)

/-- C2 fails on the code: the listener loop's end-of-stream `break` does not
fail the pending futures.  With one in-flight request and a stream that ends
immediately, the loop exits leaving the request in the in-flight set with no
completion delivered: the `cancelAll` sweep lives only in `_stop_listener`,
which runs on `disconnect()`, not on the loop's connection-lost exit. -/
theorem eof_no_cancel_counterexample :
    listenerRun (fun _ => Except.ok ()) [⟨1, 5, none⟩] []
      = .ok ([⟨1, 5, none⟩], [], []) := by
  rfl

theorem cancel_pending_eq (pending : List PendingReq) :
    cancel_pending pending = pending.map fun r => (r.pid, ECPError.disconnected) := by
  induction pending with
  | nil => rfl
  | cons r rest ih => simp [cancel_pending, ih]

/-- C2 (amended): when the socket closes mid-session the listener loop exits
leaving every still-pending request uncompleted and the in-flight set
untouched; pending requests are completed with the `Disconnected` error and
the in-flight set emptied only by `_stop_listener` (run by `disconnect`),
while a caller stuck waiting is unblocked by `send_command`'s bounded
response timeout instead. -/
theorem eof_leaves_pending (handler : Nat × Bool → Except Unit Unit)
    (pending : List PendingReq) :
    listenerRun handler pending [] = .ok (pending, [], []) ∧
    (stop_listener pending).2 = [] ∧
    (stop_listener pending).1 = pending.map (fun r => (r.pid, ECPError.disconnected)) ∧
    (∀ pid, (send_command_await pending pid .timedOut).1 = .error .timeout) :=
  ⟨rfl, rfl, cancel_pending_eq pending, fun _ => rfl⟩

theorem push_dispatch_witness :
    listenerRun (fun _ => Except.ok ()) []
      [[3, 0x00, 0x11, 0x0E, 0x00, 0x00, 0x00, 0x42, 0x01,
        0x00, 0x00, 0x00, 0x00, 0x00, 0x00, 0x00]]
      = .ok ([], [], [(0x42, true)]) :=
  (push_dispatch []
    [3, 0x00, 0x11, 0x0E, 0x00, 0x00, 0x00, 0x42, 0x01,
     0x00, 0x00, 0x00, 0x00, 0x00, 0x00, 0x00]
    3 0x110E0000 [0x00, 0x42, 0x01] rfl rfl (by simp)
    (by decide)).1 (fun _ => Except.ok ())

/-- C5: when no matching frame arrives within the response window,
`send_command` fails with the timeout error and the stale pending entry is
removed from the in-flight set, so a late-arriving frame can no longer be
matched to it by the dispatch scan. -/
theorem send_command_timeout (pending : List PendingReq) (pid : Nat) :
    (send_command_await pending pid .timedOut).1 = .error .timeout ∧
    (∀ r ∈ (send_command_await pending pid .timedOut).2, r.pid ≠ pid) ∧
    (∀ (cmd : Nat) (data : List Nat) result rest,
      dispatch (send_command_await pending pid .timedOut).2 cmd data = (some result, rest) →
      result.1.pid ≠ pid) := by
  refine ⟨rfl, fun r hr => ?_, fun cmd data result rest hd => ?_⟩
  · have hm := List.mem_filter.mp hr
    simpa using hm.2
  · have hmem := dispatch_mem cmd data _ result rest hd
    have hm := List.mem_filter.mp hmem
    simpa using hm.2

theorem send_command_timeout_witness :
    (send_command_await [⟨1, 5, none⟩, ⟨2, 5, none⟩] 1 .timedOut).1
      = Except.error .timeout ∧
    (⟨2, 5, none⟩ : PendingReq).pid ≠ 1 :=
  ⟨(send_command_timeout [⟨1, 5, none⟩, ⟨2, 5, none⟩] 1).1,
   (send_command_timeout [⟨1, 5, none⟩, ⟨2, 5, none⟩] 1).2.1 ⟨2, 5, none⟩ (by decide)⟩

/-- C6: `get_logic_state(logic_id)` sends the logic command with a 2-byte
big-endian payload equal to `logic_id` and secondary key `logic_id`; a reply
payload of fewer than 3 bytes fails with the protocol error; otherwise the
result is true iff the third reply byte (`payload[2]`) is non-zero. -/
theorem get_logic_state_spec (logic_id : Nat) (hid : logic_id < 2 ^ 16)
    (resp : List Nat) :
    (get_logic_state_request logic_id).1 = ECP_CMD_SET_LOGIC ∧
    (get_logic_state_request logic_id).2.1.length = 2 ∧
    bytesToNatBE (get_logic_state_request logic_id).2.1 = logic_id ∧
    (get_logic_state_request logic_id).2.2 = some logic_id ∧
    (resp.length < 3 → get_logic_state_reply resp = .error .protocolError) ∧
    (3 ≤ resp.length → get_logic_state_reply resp = .ok (resp.getD 2 0x00 != 0x00)) := by
  refine ⟨rfl, natToBytesBE_length 2 logic_id,
    bytesToNatBE_natToBytesBE 2 logic_id (hid.trans_eq (by norm_num)), rfl,
    fun h => ?_, fun h => ?_⟩
  · rw [get_logic_state_reply, if_pos h]
  · rw [get_logic_state_reply, if_neg (by omega)]

theorem get_logic_state_spec_witness :
    bytesToNatBE (get_logic_state_request 0x42).2.1 = 0x42 ∧
    get_logic_state_reply [0x00, 0x42, 0x01] = .ok true ∧
    get_logic_state_reply [0x00, 0x42, 0x00] = .ok false ∧
    get_logic_state_reply [0x00, 0x42] = .error .protocolError :=
  ⟨(get_logic_state_spec 0x42 (by norm_num) []).2.2.1,
   (get_logic_state_spec 0x42 (by norm_num) [0x00, 0x42, 0x01]).2.2.2.2.2 (by decide),
   (get_logic_state_spec 0x42 (by norm_num) [0x00, 0x42, 0x00]).2.2.2.2.2 (by decide),
   (get_logic_state_spec 0x42 (by norm_num) [0x00, 0x42]).2.2.2.2.1 (by decide)⟩

/-- C10: when the underlying TCP connect fails, `connect` resets both reader
and writer to `None` before raising `DHDConnectionError`; afterwards
`connected` is false and no listener loop has been started, and from a fresh
client the failed call returns the client to exactly the initial state. -/
theorem connect_failure_resets (s : ClientState) (h : connected s = false) :
    (connect s .failed).1 = .error .connectionFailed ∧
    (connect s .failed).2.hasReader = false ∧
    (connect s .failed).2.writer = none ∧
    connected (connect s .failed).2 = false ∧
    (connect s .failed).2.listenerRunning = s.listenerRunning ∧
    connect ⟨false, none, false⟩ .failed
      = (.error .connectionFailed, ⟨false, none, false⟩) := by
  have hc : connect s .failed
      = (.error .connectionFailed, { s with hasReader := false, writer := none }) := by
    rw [connect, if_neg (by simp [h])]
  rw [hc]
  exact ⟨rfl, rfl, rfl, rfl, rfl, rfl⟩

theorem connect_failure_resets_witness :
    (connect ⟨false, none, false⟩ .failed).1 = Except.error .connectionFailed ∧
    (connect ⟨false, none, false⟩ .failed).2.writer = none ∧
    connected (connect ⟨false, none, false⟩ .failed).2 = false :=
  ⟨(connect_failure_resets ⟨false, none, false⟩ rfl).1,
   (connect_failure_resets ⟨false, none, false⟩ rfl).2.2.1,
   (connect_failure_resets ⟨false, none, false⟩ rfl).2.2.2.1⟩

end DHD
